import Mathlib

/-!
Shallow embedding of the `deploy` Go package of almerlucke/go-elb-deploy.

The package reads a deployment descriptor (`deploy.json`), resolves the head
commit of a branch from `.git/refs/heads/<branch>`, zips the configured files
and directories into an in-memory buffer, uploads the buffer to S3 and then
deploys it to Elastic Beanstalk (create application version, update
environment).

Modelling conventions:
- The project directory is modelled as a tree `FSNode` of named entries
  (directories with ordered children, files with string contents).  Paths are
  lists of components; `filepath.Join` followed by a lookup is modelled by
  cleaning the slash-separated components and descending the tree.  `..`
  segments that would escape the project root are not resolvable in the tree
  and simply fail to look up.  `filepath.Walk` visits entries in lexical
  order; since the theorems below quantify over all trees (hence over all
  orders of the children lists), child order is left as given in the tree.
- The zip archive is modelled as the list of entries created on the
  `zip.Writer`, in creation order, each with its archive-internal name and
  payload; the byte-level zip container framing is abstracted, and
  `zipBuffer.Len()` is modelled as the total payload size.
- The progress callback (`_progressFunc`, a `func(archivePath string)`) can
  observe the archive paths but has no access to the writer or the buffer; it
  is modelled as an optional state transformer `String → σ → σ` threaded
  through the walk in exactly the places the source invokes it.
- AWS calls go through a `RemoteBehavior` oracle giving each call's outcome;
  a run additionally produces the trace of calls that were issued, plus a
  marker event recording the successful completion of the archive build.
- JSON decoding of `deploy.json` is external input handling: the decoded
  user-supplied fields are given as a `UserConfig` value.
- Errors are represented by the spec's taxonomy (`Err`); the Go code
  propagates each underlying error value unchanged, which the embedding
  mirrors by propagating the same `Err` value.
-/

namespace ElbDeploy

/-- Error taxonomy of the tool (spec §7); each Go error is propagated
unchanged, modelled by propagating the same `Err` value. -/
inductive Err where
  | configError
  | vcsError (branch : String)
  | packagingError (path : String)
  | uploadError
  | deployError
deriving DecidableEq, Repr

/-- A node of the local filesystem tree: a regular file with its contents, or
a directory with an ordered list of named children. -/
inductive FSNode where
  | file (content : String)
  | dir (entries : List (String × FSNode))

/-- Find a child by name in a directory's entry list
(first match, like a real directory where names are unique). -/
def findEntry (es : List (String × FSNode)) (n : String) : Option FSNode :=
  match es with
  | [] => none
  | (m, sub) :: rest => if m = n then some sub else findEntry rest n

/-- Look up a path (list of components) in the tree. -/
def FSNode.lookup (node : FSNode) (p : List String) : Option FSNode :=
  match p with
  | [] => some node
  | n :: rest =>
    match node with
    | .file _ => none
    | .dir es =>
      match findEntry es n with
      | some sub => sub.lookup rest
      | none => none

/-- Split a string at every occurrence of a character (the behavior of Go's
`strings.Split` with a one-character separator), by structural recursion so
that concrete instances reduce. -/
def splitOnCharAux (sep : Char) : List Char → List Char → List String
  | [], acc => [⟨acc.reverse⟩]
  | c :: cs, acc =>
    if c = sep then ⟨acc.reverse⟩ :: splitOnCharAux sep cs []
    else splitOnCharAux sep cs (c :: acc)

def splitOnChar (sep : Char) (s : String) : List String :=
  splitOnCharAux sep s.toList []

/-- Path-component cleaning, the component-level content of Go's
`path.Clean`/`filepath.Clean` on relative paths: drop empty and `.`
components; `..` pops the previous component unless there is none (or it is
itself a kept `..`), in which case it is kept. -/
def cleanAux (acc : List String) (cs : List String) : List String :=
  match cs with
  | [] => acc.reverse
  | c :: rest =>
    if c = "" ∨ c = "." then cleanAux acc rest
    else if c = ".." then
      match acc with
      | [] => cleanAux [".."] rest
      | top :: acc' =>
        if top = ".." then cleanAux (c :: top :: acc') rest
        else cleanAux acc' rest
    else cleanAux (c :: acc) rest

def cleanComps (cs : List String) : List String :=
  cleanAux [] cs

/-- `filepath.Join(deployDir, relPath)` followed by resolution relative to
the project root: split on the separator and clean. -/
def splitRelPath (s : String) : List String :=
  cleanComps (splitOnChar '/' s)

/-- Go `path.Base` of a path string: last component; `"."` for an empty or
all-separator path (the project root is never all-separator here). -/
def goBase (s : String) : String :=
  ((splitOnChar '/' s).filter (fun c => ¬ c = "")).getLastD "."

/-- Go `filepath.SplitList`: splits on the OS list separator, `":"` on Unix;
the empty string yields the empty list. -/
def splitList (s : String) : List String :=
  if s = "" then [] else splitOnChar ':' s

/-- Go `path.Join`: drop empty elements, join with `"/"`, then `path.Clean`;
returns `""` when every element is empty, `"."` when cleaning removes
everything. -/
def pathJoin (elems : List String) : String :=
  let ne := elems.filter (fun c => ¬ c = "")
  if ne.isEmpty then ""
  else
    let cleaned := cleanComps (splitOnChar '/' (String.intercalate "/" ne))
    if cleaned.isEmpty then "." else String.intercalate "/" cleaned

/-- The Latin-1 part of Go's `unicode.IsSpace` (the whitespace actually
relevant to commit-hash ref files); `strings.TrimSpace` strips these from
both ends. -/
def goIsSpace (c : Char) : Bool :=
  c = ' ' ∨ c = '\t' ∨ c = '\n' ∨ c = '\x0b' ∨ c = '\x0c' ∨ c = '\r'
    ∨ c = '\u0085' ∨ c = '\u00A0'

/-- Go `strings.TrimSpace`. -/
def trimSpace (s : String) : String :=
  ⟨((s.toList.dropWhile goIsSpace).reverse.dropWhile goIsSpace).reverse⟩

/-- One entry created on the `zip.Writer`: archive-internal name and file
payload. -/
structure ZipEntry where
  name : String
  content : String
deriving DecidableEq, Repr

/-- `zipBuffer.Len()`, with the zip container framing abstracted away: the
total payload size of the created entries. -/
def bufferLen (es : List ZipEntry) : Nat :=
  (es.map (fun e => e.content.length)).sum

/-- The user-supplied fields of `deploy.json` (already JSON-decoded; the
decode itself is external input handling). -/
structure UserConfig where
  files : List String
  region : String
  accessKey : String
  secretAccessKey : String
  bucket : String
  applicationName : String
  environmentName : String
  branch : String
deriving DecidableEq, Repr

/-- `_deploymentDescriptor`: user-supplied fields plus the derived fields set
by `newDeploymentDescriptor`.  The AWS `Session` handle is not part of the
pure state; remote behavior is a separate oracle parameter. -/
structure DeploymentDescriptor where
  Files : List String
  Region : String
  AccessKey : String
  SecretAccessKey : String
  Bucket : String
  ApplicationName : String
  EnvironmentName : String
  Branch : String
  BuildVersion : String
  BuildKey : String
  Directory : String
  CommitHash : String
deriving DecidableEq, Repr

/-- The ref-file path `filepath.Join(descriptor.Directory, ".git", "refs",
"heads", descriptor.Branch)`, as components relative to the project root. -/
def headPath (branch : String) : List String :=
  cleanComps ([".git", "refs", "heads"] ++ splitOnChar '/' branch)

/-- `getCommitHash`: read the branch head ref file and trim it.  Reading
fails (with the underlying I/O error, classified `VCSError`) when the path is
missing or is a directory. -/
def getCommitHash (fs : FSNode) (branch : String) : Except Err String :=
  match fs.lookup (headPath branch) with
  | some (.file content) => .ok (trimSpace content)
  | _ => .error (.vcsError branch)

/-- `newDeploymentDescriptor`: decode `deploy.json` (given as `cfg`), record
the directory, resolve the commit hash, derive `BuildVersion` =
`fmt.Sprintf("%v-%v", Branch, commitHash)` and `BuildKey` =
`BuildVersion + ".zip"`.  (The `session.New` call only packages credentials
for the remote oracle and has no observable pure effect.) -/
def newDeploymentDescriptor (fs : FSNode) (deploymentDirectory : String)
    (cfg : UserConfig) : Except Err DeploymentDescriptor :=
  match getCommitHash fs cfg.branch with
  | .error e => .error e
  | .ok commitHash =>
    .ok
      { Files := cfg.files
        Region := cfg.region
        AccessKey := cfg.accessKey
        SecretAccessKey := cfg.secretAccessKey
        Bucket := cfg.bucket
        ApplicationName := cfg.applicationName
        EnvironmentName := cfg.environmentName
        Branch := cfg.branch
        BuildVersion := cfg.branch ++ "-" ++ commitHash
        BuildKey := cfg.branch ++ "-" ++ commitHash ++ ".zip"
        Directory := deploymentDirectory
        CommitHash := commitHash }

mutual

/-- The regular files reachable below a node, in traversal order, as
(path components relative to the node, contents) pairs; a `filepath.Walk`
skips directories themselves, so only files are listed. -/
def nodeFiles : FSNode → List (List String × String)
  | .file c => [([], c)]
  | .dir es => entriesFiles es

/-- Files reachable through a directory's entry list. -/
def entriesFiles : List (String × FSNode) → List (List String × String)
  | [] => []
  | (n, sub) :: rest =>
    (nodeFiles sub).map (fun pc => (n :: pc.1, pc.2)) ++ entriesFiles rest

end

mutual

/-- Number of regular files reachable from a node (spec §8: a file counts 1,
a directory counts every file found by recursive traversal). -/
def FSNode.fileCount : FSNode → Nat
  | .file _ => 1
  | .dir es => entriesFileCount es

def entriesFileCount : List (String × FSNode) → Nat
  | [] => 0
  | (_, sub) :: rest => sub.fileCount + entriesFileCount rest

end

/-- Body of the `filepath.Walk` callback of `writeDirToZip`, applied to each
regular file found under the directory (directories are skipped by the
callback's `fileInfo.IsDir()` test).  For a file at relative components
`rcs` with contents `content`:
`relativeFilePath := filepath.Rel(dirPath, filePath)`,
`archivePath := path.Join(basePath, path.Join(filepath.SplitList(relativeFilePath)...))`,
the optional progress callback fires on `archivePath`, and an entry with that
name and the file's bytes is created on the writer. -/
def writeDirToZipGo {σ : Type} (basePath : String)
    (progress : Option (String → σ → σ)) :
    List (List String × String) → σ → List ZipEntry × σ
  | [], s => ([], s)
  | (rcs, content) :: rest, s =>
    let relativeFilePath := String.intercalate "/" rcs
    let archivePath := pathJoin [basePath, pathJoin (splitList relativeFilePath)]
    let s1 := match progress with
      | some p => p archivePath s
      | none => s
    let r := writeDirToZipGo basePath progress rest s1
    (⟨archivePath, content⟩ :: r.1, r.2)

/-- `writeDirToZip`: `basePath := filepath.Base(dirPath)` (supplied by the
caller here, since the tree addresses the directory by components), then walk
the directory and write every regular file. -/
def writeDirToZip {σ : Type} (basePath : String) (node : FSNode)
    (progress : Option (String → σ → σ)) (s : σ) : List ZipEntry × σ :=
  writeDirToZipGo basePath progress (nodeFiles node) s

/-- `writeFileToZip`: `basePath := filepath.Base(filePath)`; the progress
callback fires on the base name, and a single entry with that name and the
file's bytes is created on the writer. -/
def writeFileToZip {σ : Type} (basePath : String) (content : String)
    (progress : Option (String → σ → σ)) (s : σ) : List ZipEntry × σ :=
  let s1 := match progress with
    | some p => p basePath s
    | none => s
  ([⟨basePath, content⟩], s1)

/-- Loop body of `zipFiles` over `descriptor.Files`: for each `deployFile`,
`os.Lstat(filepath.Join(deployDir, deployFile))` (failure, classified
`PackagingError`, aborts the build), then `writeDirToZip` for a directory and
`writeFileToZip` for a file, accumulating entries on the shared writer.
`dirBase` is `filepath.Base` of the deploy directory, the base-name fallback
when a deploy file path has no components of its own. -/
def zipFilesGo {σ : Type} (fs : FSNode) (dirBase : String)
    (progress : Option (String → σ → σ)) :
    List String → σ → Except Err (List ZipEntry) × σ
  | [], s => (.ok [], s)
  | deployFile :: rest, s =>
    match fs.lookup (splitRelPath deployFile) with
    | none => (.error (.packagingError deployFile), s)
    | some node =>
      let base := (splitRelPath deployFile).getLastD dirBase
      let w :=
        match node with
        | .dir _ => writeDirToZip base node progress s
        | .file c => writeFileToZip base c progress s
      let r := zipFilesGo fs dirBase progress rest w.2
      match r.1 with
      | .error e => (.error e, r.2)
      | .ok es2 => (.ok (w.1 ++ es2), r.2)

/-- `zipFiles`: build the in-memory archive from `descriptor.Files`, rooted
at `descriptor.Directory` (modelled by the tree `fs`). -/
def zipFiles {σ : Type} (fs : FSNode) (descriptor : DeploymentDescriptor)
    (progress : Option (String → σ → σ)) (s : σ) :
    Except Err (List ZipEntry) × σ :=
  zipFilesGo fs (goBase descriptor.Directory) progress descriptor.Files s

/-- `s3.PutObjectInput` as built by `uploadToS3`. -/
structure PutObjectInput where
  bucket : String
  key : String
  acl : String
  body : List ZipEntry
  contentLength : Nat
  contentType : String
  metadata : List (String × String)
deriving DecidableEq, Repr

/-- `elasticbeanstalk.CreateApplicationVersionInput` as built by
`elasticBeanstalkDeploy`. -/
structure CreateApplicationVersionInput where
  applicationName : String
  versionLabel : String
  s3Bucket : String
  s3Key : String
deriving DecidableEq, Repr

/-- `elasticbeanstalk.UpdateEnvironmentInput` as built by
`elasticBeanstalkDeploy`. -/
structure UpdateEnvironmentInput where
  versionLabel : String
  environmentName : String
deriving DecidableEq, Repr

/-- Observable events of a run: the marker for a successfully completed
archive build (`zipFiles` returning without error) and the three remote
calls, each recorded when the call is issued. -/
inductive Event where
  | archiveBuilt
  | putObject (input : PutObjectInput)
  | createAppVersion (input : CreateApplicationVersionInput)
  | updateEnvironment (input : UpdateEnvironmentInput)
deriving DecidableEq, Repr

/-- Outcomes of the remote AWS endpoints, an oracle covering every response
pattern the services may exhibit. -/
structure RemoteBehavior where
  putObject : PutObjectInput → Except Err Unit
  createAppVersion : CreateApplicationVersionInput → Except Err Unit
  updateEnvironment : UpdateEnvironmentInput → Except Err Unit

/-- `uploadToS3`: `zipFiles(nil)`, then a single `PutObject` with the bucket,
the `BuildKey`, ACL `"private"`, the archive bytes, their length,
content-type `"application/zip"` and the fixed metadata map.  Returns the
result, the events of the attempt, and the descriptor as left by the call
(the Go method takes a pointer; the source assigns to no field). -/
def uploadToS3 (fs : FSNode) (remote : RemoteBehavior)
    (descriptor : DeploymentDescriptor) :
    (Except Err Unit × List Event) × DeploymentDescriptor :=
  match (zipFiles (σ := Unit) fs descriptor none ()).1 with
  | .error e => ((.error e, []), descriptor)
  | .ok zipEntries =>
    let params : PutObjectInput :=
      { bucket := descriptor.Bucket
        key := descriptor.BuildKey
        acl := "private"
        body := zipEntries
        contentLength := bufferLen zipEntries
        contentType := "application/zip"
        metadata := [("Key", "MetadataValue")] }
    let events := [Event.archiveBuilt, Event.putObject params]
    match remote.putObject params with
    | .error e => ((.error e, events), descriptor)
    | .ok _ => ((.ok (), events), descriptor)

/-- `elasticBeanstalkDeploy`: `CreateApplicationVersion` with the application
name, the `BuildVersion` label and the S3 source bundle, then (only on
success) `UpdateEnvironment` with the same label and the environment name.
Returns the result, the events, and the descriptor as left by the call. -/
def elasticBeanstalkDeploy (remote : RemoteBehavior)
    (descriptor : DeploymentDescriptor) :
    (Except Err Unit × List Event) × DeploymentDescriptor :=
  let versionInput : CreateApplicationVersionInput :=
    { applicationName := descriptor.ApplicationName
      versionLabel := descriptor.BuildVersion
      s3Bucket := descriptor.Bucket
      s3Key := descriptor.BuildKey }
  match remote.createAppVersion versionInput with
  | .error e => ((.error e, [.createAppVersion versionInput]), descriptor)
  | .ok _ =>
    let environmentInput : UpdateEnvironmentInput :=
      { versionLabel := descriptor.BuildVersion
        environmentName := descriptor.EnvironmentName }
    match remote.updateEnvironment environmentInput with
    | .error e =>
      ((.error e,
        [.createAppVersion versionInput, .updateEnvironment environmentInput]),
        descriptor)
    | .ok _ =>
      ((.ok (),
        [.createAppVersion versionInput, .updateEnvironment environmentInput]),
        descriptor)

/-- `Deploy`: build the descriptor, upload to S3, deploy to Elastic
Beanstalk; each failure aborts immediately and is returned unchanged.  The
trace of the aborted run keeps the events that already happened. -/
def Deploy (fs : FSNode) (deploymentDirectory : String) (cfg : UserConfig)
    (remote : RemoteBehavior) : Except Err Unit × List Event :=
  match newDeploymentDescriptor fs deploymentDirectory cfg with
  | .error e => (.error e, [])
  | .ok desc =>
    match uploadToS3 fs remote desc with
    | ((.error e, events), _) => (.error e, events)
    | ((.ok _, events), desc1) =>
      match elasticBeanstalkDeploy remote desc1 with
      | ((r, events2), _) => (r, events ++ events2)

/-- Number of regular files a configured entry contributes according to the
spec: everything reachable from the path it resolves to (`0` when the path
does not resolve; the theorems using this assume it does). -/
def reachableCount (fs : FSNode) (deployFile : String) : Nat :=
  match fs.lookup (splitRelPath deployFile) with
  | some node => node.fileCount
  | none => 0

/-- The entries `writeDirToZip` creates for a directory, as a pure function
of the tree: one entry per reachable regular file, named by the
`path.Join`/`filepath.SplitList` combination applied to its relative path. -/
def dirEntriesOf (basePath : String) (node : FSNode) : List ZipEntry :=
  (nodeFiles node).map (fun pc =>
    ⟨pathJoin [basePath, pathJoin (splitList (String.intercalate "/" pc.1))], pc.2⟩)

/-- The archive `zipFiles` produces, as a pure function of the tree and the
configured list, independent of any progress callback (proved below in
`zipFilesGo_fst_eq_archiveOf`). -/
def archiveOf (fs : FSNode) (dirBase : String) :
    List String → Except Err (List ZipEntry)
  | [] => .ok []
  | deployFile :: rest =>
    match fs.lookup (splitRelPath deployFile) with
    | none => .error (.packagingError deployFile)
    | some node =>
      let base := (splitRelPath deployFile).getLastD dirBase
      let es :=
        match node with
        | .dir _ => dirEntriesOf base node
        | .file c => [⟨base, c⟩]
      match archiveOf fs dirBase rest with
      | .error e => .error e
      | .ok es2 => .ok (es ++ es2)

/-- Concrete project tree for the end-to-end scenario of spec §8: a
`Dockerfile` and a `master` branch ref containing `"deadbeef"`. -/
def sampleFS : FSNode :=
  .dir [(".git", .dir [("refs", .dir [("heads", .dir [("master", .file "deadbeef")])])]),
        ("Dockerfile", .file "FROM scratch")]

/-- Concrete decoded `deploy.json` for the end-to-end scenario. -/
def sampleCfg : UserConfig :=
  { files := ["Dockerfile"], region := "eu-west-1", accessKey := "ak",
    secretAccessKey := "sk", bucket := "bkt", applicationName := "app",
    environmentName := "env", branch := "master" }

/-- Remote oracle on which every AWS call succeeds. -/
def remoteOk : RemoteBehavior :=
  { putObject := fun _ => .ok (), createAppVersion := fun _ => .ok (),
    updateEnvironment := fun _ => .ok () }

/-- The descriptor `newDeploymentDescriptor` builds for `sampleFS` and
`sampleCfg` in `/home/project`. -/
def sampleDesc : DeploymentDescriptor :=
  { Files := ["Dockerfile"], Region := "eu-west-1", AccessKey := "ak",
    SecretAccessKey := "sk", Bucket := "bkt", ApplicationName := "app",
    EnvironmentName := "env", Branch := "master",
    BuildVersion := "master-deadbeef", BuildKey := "master-deadbeef.zip",
    Directory := "/home/project", CommitHash := "deadbeef" }

/-- The `PutObjectInput` issued in the end-to-end scenario. -/
def samplePut : PutObjectInput :=
  { bucket := "bkt", key := "master-deadbeef.zip", acl := "private",
    body := [⟨"Dockerfile", "FROM scratch"⟩], contentLength := 12,
    contentType := "application/zip", metadata := [("Key", "MetadataValue")] }

/-- Project tree holding only a `master` ref containing `"abc123\n"` (the
ref-file trimming example of spec §8). -/
def refFS : FSNode :=
  .dir [(".git", .dir [("refs", .dir [("heads", .dir [("master", .file "abc123\n")])])])]

/-- Project tree with the `master` ref but without the configured
`Dockerfile`: the archive build must fail and nothing may be uploaded. -/
def missingFS : FSNode :=
  .dir [(".git", .dir [("refs", .dir [("heads", .dir [("master", .file "deadbeef")])])])]

/-- The descriptor built for `missingFS` and `sampleCfg`. -/
def missingDesc : DeploymentDescriptor :=
  { Files := ["Dockerfile"], Region := "eu-west-1", AccessKey := "ak",
    SecretAccessKey := "sk", Bucket := "bkt", ApplicationName := "app",
    EnvironmentName := "env", Branch := "master",
    BuildVersion := "master-deadbeef", BuildKey := "master-deadbeef.zip",
    Directory := "/home/project", CommitHash := "deadbeef" }

/-- C5: for every branch name and every commit hash read from the ref file,
the derived `BuildVersion` is exactly `"{branch}-{commitHash}"` and the
derived `BuildKey` is `BuildVersion ++ ".zip"`. -/
theorem newDeploymentDescriptor_build_version_key
    (fs : FSNode) (dir : String) (cfg : UserConfig) (d : DeploymentDescriptor)
    (h : newDeploymentDescriptor fs dir cfg = .ok d) :
    getCommitHash fs cfg.branch = .ok d.CommitHash ∧
    d.BuildVersion = cfg.branch ++ "-" ++ d.CommitHash ∧
    d.BuildKey = d.BuildVersion ++ ".zip" := by
  unfold newDeploymentDescriptor at h
  cases hc : getCommitHash fs cfg.branch with
  | error e => rw [hc] at h; exact absurd h (by simp)
  | ok commitHash =>
    rw [hc] at h
    injection h with h
    subst h
    exact ⟨rfl, rfl, rfl⟩

/-- Witness for C5 at the concrete end-to-end scenario. -/
theorem newDeploymentDescriptor_build_version_key_witness :
    newDeploymentDescriptor sampleFS "/home/project" sampleCfg = .ok sampleDesc ∧
    (getCommitHash sampleFS sampleCfg.branch = .ok sampleDesc.CommitHash ∧
     sampleDesc.BuildVersion = sampleCfg.branch ++ "-" ++ sampleDesc.CommitHash ∧
     sampleDesc.BuildKey = sampleDesc.BuildVersion ++ ".zip") :=
  ⟨rfl, newDeploymentDescriptor_build_version_key sampleFS "/home/project"
    sampleCfg sampleDesc rfl⟩

/-- C7: the resolved commit identifier is the ref-file content with its
surrounding whitespace stripped. -/
theorem getCommitHash_trims (fs : FSNode) (branch content : String)
    (h : fs.lookup (headPath branch) = some (.file content)) :
    getCommitHash fs branch = .ok (trimSpace content) := by
  unfold getCommitHash
  rw [h]

/-- Witness for C7: a ref file containing `"abc123\n"` resolves to
`"abc123"`. -/
theorem getCommitHash_trims_witness :
    refFS.lookup (headPath "master") = some (.file "abc123\n") ∧
    getCommitHash refFS "master" = .ok "abc123" :=
  ⟨rfl, (getCommitHash_trims refFS "master" "abc123\n" rfl).trans rfl⟩

/-- C9: neither the upload step (which embeds the archive build) nor the
two-step Elastic Beanstalk deployment changes any field of the descriptor,
whether the step succeeds or fails. -/
theorem descriptor_not_mutated (fs : FSNode) (remote : RemoteBehavior)
    (d : DeploymentDescriptor) :
    (uploadToS3 fs remote d).2 = d ∧ (elasticBeanstalkDeploy remote d).2 = d := by
  refine ⟨?_, ?_⟩
  · unfold uploadToS3
    split
    · rfl
    · dsimp only
      split <;> rfl
  · unfold elasticBeanstalkDeploy
    dsimp only
    split
    · rfl
    · split <;> rfl

/-- C10: every object-store write issued by the upload step carries the fixed
metadata map with the single entry `("Key", "MetadataValue")`, along with ACL
`"private"`, content-type `"application/zip"`, the archive's length, the
descriptor's bucket and the build key. -/
theorem uploadToS3_metadata (fs : FSNode) (remote : RemoteBehavior)
    (d : DeploymentDescriptor) (i : PutObjectInput)
    (h : Event.putObject i ∈ (uploadToS3 fs remote d).1.2) :
    i.metadata = [("Key", "MetadataValue")] ∧
    i.contentType = "application/zip" ∧ i.acl = "private" ∧
    i.contentLength = bufferLen i.body ∧
    i.bucket = d.Bucket ∧ i.key = d.BuildKey := by
  unfold uploadToS3 at h
  split at h
  · simp at h
  · dsimp only at h
    split at h <;>
    · simp only [List.mem_cons, List.not_mem_nil, or_false] at h
      rcases h with h | h
      · exact absurd h (by simp)
      · rw [show i = _ from (Event.putObject.inj h)]
        exact ⟨rfl, rfl, rfl, rfl, rfl, rfl⟩

/-- Witness for C10 at the concrete end-to-end scenario. -/
theorem uploadToS3_metadata_witness :
    (Event.putObject samplePut ∈ (uploadToS3 sampleFS remoteOk sampleDesc).1.2) ∧
    (samplePut.metadata = [("Key", "MetadataValue")] ∧
     samplePut.contentType = "application/zip" ∧ samplePut.acl = "private" ∧
     samplePut.contentLength = bufferLen samplePut.body ∧
     samplePut.bucket = sampleDesc.Bucket ∧ samplePut.key = sampleDesc.BuildKey) :=
  ⟨by decide, uploadToS3_metadata sampleFS remoteOk sampleDesc samplePut (by decide)⟩

/-- The directory walk writes one entry per reachable regular file, with the
name computed from the relative path; the entries do not depend on the
progress callback or its state. -/
theorem writeDirToZipGo_fst {σ : Type} (basePath : String)
    (progress : Option (String → σ → σ)) (l : List (List String × String))
    (s : σ) :
    (writeDirToZipGo basePath progress l s).1 = l.map (fun pc =>
      ⟨pathJoin [basePath, pathJoin (splitList (String.intercalate "/" pc.1))],
        pc.2⟩) := by
  induction l generalizing s with
  | nil => rfl
  | cons x rest ih =>
    obtain ⟨rcs, content⟩ := x
    simp only [writeDirToZipGo, List.map]
    rw [ih]

mutual

/-- A node's reachable-file listing has exactly `fileCount` elements. -/
theorem nodeFiles_length (n : FSNode) : (nodeFiles n).length = n.fileCount := by
  cases n with
  | file c => rfl
  | dir es =>
    simp only [nodeFiles, FSNode.fileCount]
    exact entriesFiles_length es

theorem entriesFiles_length (es : List (String × FSNode)) :
    (entriesFiles es).length = entriesFileCount es := by
  cases es with
  | nil => rfl
  | cons e rest =>
    obtain ⟨n, sub⟩ := e
    simp only [entriesFiles, entriesFileCount, List.length_append,
      List.length_map]
    rw [nodeFiles_length sub, entriesFiles_length rest]

end

/-- The entries and the error result of the archive build are a pure function
of the tree and the configured list: any progress callback in any starting
state yields the same first component. -/
theorem zipFilesGo_fst_eq_archiveOf {σ : Type} (fs : FSNode) (dirBase : String)
    (progress : Option (String → σ → σ)) (files : List String) (s : σ) :
    (zipFilesGo fs dirBase progress files s).1 = archiveOf fs dirBase files := by
  induction files generalizing s with
  | nil => rfl
  | cons f rest ih =>
    simp only [zipFilesGo, archiveOf]
    cases hl : fs.lookup (splitRelPath f) with
    | none => rfl
    | some node =>
      cases node with
      | file c =>
        dsimp only
        rw [ih]
        cases archiveOf fs dirBase rest with
        | error e => rfl
        | ok es2 => rfl
      | dir es =>
        dsimp only [writeDirToZip]
        rw [writeDirToZipGo_fst, ih]
        cases archiveOf fs dirBase rest with
        | error e => rfl
        | ok es2 => rfl

/-- C8: the archive build returns the same entries and the same
success/error result with any progress callback (in any callback state) as
with the `nil` callback `uploadToS3` passes. -/
theorem zipFiles_progress_independent {σ : Type} (fs : FSNode)
    (d : DeploymentDescriptor) (progress : Option (String → σ → σ)) (s : σ) :
    (zipFiles fs d progress s).1 = (zipFiles (σ := Unit) fs d none ()).1 := by
  unfold zipFiles
  rw [zipFilesGo_fst_eq_archiveOf, zipFilesGo_fst_eq_archiveOf]

/-- When every configured path resolves, the pure archive is built and has
one entry per reachable regular file. -/
theorem archiveOf_count (fs : FSNode) (dirBase : String) (files : List String)
    (h : ∀ f ∈ files, (fs.lookup (splitRelPath f)).isSome = true) :
    ∃ es, archiveOf fs dirBase files = .ok es ∧
      es.length = (files.map (reachableCount fs)).sum := by
  induction files with
  | nil => exact ⟨[], rfl, rfl⟩
  | cons f rest ih =>
    obtain ⟨es2, heq, hlen⟩ := ih (fun g hg => h g (List.mem_cons_of_mem f hg))
    have hf := h f (List.mem_cons_self f rest)
    cases hl : fs.lookup (splitRelPath f) with
    | none => rw [hl] at hf; simp at hf
    | some node =>
      cases node with
      | file c =>
        refine ⟨⟨(splitRelPath f).getLastD dirBase, c⟩ :: es2, ?_, ?_⟩
        · simp only [archiveOf, hl, heq, List.singleton_append]
        · simp only [List.length_cons, List.map, List.sum_cons, hlen,
            reachableCount, hl, FSNode.fileCount]
          omega
      | dir es =>
        refine ⟨dirEntriesOf ((splitRelPath f).getLastD dirBase) (.dir es) ++ es2,
          ?_, ?_⟩
        · simp only [archiveOf, hl, heq]
        · simp only [List.length_append, List.map, List.sum_cons, hlen,
            reachableCount, hl, dirEntriesOf, List.length_map]
          rw [nodeFiles_length]

/-- When some configured path does not resolve, the pure archive build fails
with the packaging error of a missing path. -/
theorem archiveOf_missing (fs : FSNode) (dirBase : String) (files : List String)
    (h : ∃ f ∈ files, fs.lookup (splitRelPath f) = none) :
    ∃ p, fs.lookup (splitRelPath p) = none ∧
      archiveOf fs dirBase files = .error (.packagingError p) := by
  induction files with
  | nil => obtain ⟨f, hf, _⟩ := h; exact absurd hf (List.not_mem_nil f)
  | cons f rest ih =>
    cases hl : fs.lookup (splitRelPath f) with
    | none => exact ⟨f, hl, by simp only [archiveOf, hl]⟩
    | some node =>
      obtain ⟨g, hg, hgl⟩ := h
      rcases List.mem_cons.1 hg with hgf | hgr
      · rw [hgf] at hgl; rw [hgl] at hl; exact absurd hl (by simp)
      · obtain ⟨p, hp, heq⟩ := ih ⟨g, hgr, hgl⟩
        exact ⟨p, hp, by simp only [archiveOf, hl, heq]⟩

/-- C2: when every configured path exists, `zipFiles` succeeds and the
archive's entry count equals the total number of regular files reachable
from the configured entries (directories contribute their recursive file
count, single files contribute one). -/
theorem zipFiles_entry_count (fs : FSNode) (d : DeploymentDescriptor)
    (hne : d.Files ≠ [])
    (h : ∀ f ∈ d.Files, (fs.lookup (splitRelPath f)).isSome = true) :
    ∃ es, (zipFiles (σ := Unit) fs d none ()).1 = .ok es ∧
      es.length = (d.Files.map (reachableCount fs)).sum := by
  obtain ⟨es, heq, hlen⟩ := archiveOf_count fs (goBase d.Directory) d.Files h
  refine ⟨es, ?_, hlen⟩
  unfold zipFiles
  rw [zipFilesGo_fst_eq_archiveOf, heq]

/-- Witness for C2 at the concrete end-to-end scenario. -/
theorem zipFiles_entry_count_witness :
    (sampleDesc.Files ≠ [] ∧
     ∀ f ∈ sampleDesc.Files, (sampleFS.lookup (splitRelPath f)).isSome = true) ∧
    (∃ es, (zipFiles (σ := Unit) sampleFS sampleDesc none ()).1 = .ok es ∧
      es.length = (sampleDesc.Files.map (reachableCount sampleFS)).sum) :=
  ⟨⟨by decide, by decide⟩,
   zipFiles_entry_count sampleFS sampleDesc (by decide) (by decide)⟩

/-- C6: given a constructed descriptor with a configured path that does not
exist, the archive build fails with a packaging error, `Deploy` surfaces that
very error to its caller, and no remote call (no upload, no version
registration, no environment update) is recorded. -/
theorem deploy_missing_path_aborts (fs : FSNode) (dir : String)
    (cfg : UserConfig) (remote : RemoteBehavior) (d : DeploymentDescriptor)
    (hdesc : newDeploymentDescriptor fs dir cfg = .ok d)
    (f : String) (hf : f ∈ d.Files)
    (hmiss : fs.lookup (splitRelPath f) = none) :
    ∃ p, fs.lookup (splitRelPath p) = none ∧
      (zipFiles (σ := Unit) fs d none ()).1 = .error (.packagingError p) ∧
      Deploy fs dir cfg remote = (.error (.packagingError p), []) := by
  obtain ⟨p, hp, heq⟩ :=
    archiveOf_missing fs (goBase d.Directory) d.Files ⟨f, hf, hmiss⟩
  have hz : (zipFiles (σ := Unit) fs d none ()).1 = .error (.packagingError p) := by
    unfold zipFiles
    rw [zipFilesGo_fst_eq_archiveOf, heq]
  have hu : uploadToS3 fs remote d =
      ((.error (.packagingError p), []), d) := by
    unfold uploadToS3
    rw [hz]
  refine ⟨p, hp, hz, ?_⟩
  unfold Deploy
  rw [hdesc]
  dsimp only
  rw [hu]

/-- Witness for C6: the configured `Dockerfile` is absent from `missingFS`;
the run fails with its packaging error and records no event at all. -/
theorem deploy_missing_path_aborts_witness :
    (newDeploymentDescriptor missingFS "/home/project" sampleCfg = .ok missingDesc ∧
     "Dockerfile" ∈ missingDesc.Files ∧
     missingFS.lookup (splitRelPath "Dockerfile") = none) ∧
    (∃ p, missingFS.lookup (splitRelPath p) = none ∧
      (zipFiles (σ := Unit) missingFS missingDesc none ()).1 =
        .error (.packagingError p) ∧
      Deploy missingFS "/home/project" sampleCfg remoteOk =
        (.error (.packagingError p), [])) :=
  ⟨⟨rfl, by decide, rfl⟩,
   deploy_missing_path_aborts missingFS "/home/project" sampleCfg remoteOk
     missingDesc rfl "Dockerfile" (by decide) rfl⟩

/-- C1: in the end-to-end scenario (descriptor listing only `Dockerfile`,
branch `master`, ref file containing `deadbeef`) a successful run records the
archive-build completion first and then exactly three remote calls, in
order: the object-store write with key `master-deadbeef.zip`, the
application-version registration with label `master-deadbeef`, and the
environment update with the same label. -/
theorem deploy_end_to_end_trace :
    Deploy sampleFS "/home/project" sampleCfg remoteOk =
      (.ok (),
       [Event.archiveBuilt,
        Event.putObject samplePut,
        Event.createAppVersion
          { applicationName := "app", versionLabel := "master-deadbeef",
            s3Bucket := "bkt", s3Key := "master-deadbeef.zip" },
        Event.updateEnvironment
          { versionLabel := "master-deadbeef", environmentName := "env" }]) := by
  rfl

/-- C3: a configured entry that resolves to a single file contributes exactly
one archive entry, named by the file's base name (its last path component,
with no parent path). -/
theorem zipFiles_single_file_entry {σ : Type} (fs : FSNode)
    (d : DeploymentDescriptor) (deployFile content : String)
    (progress : Option (String → σ → σ)) (s : σ)
    (hfiles : d.Files = [deployFile])
    (h : fs.lookup (splitRelPath deployFile) = some (.file content)) :
    (zipFiles fs d progress s).1 =
      .ok [⟨(splitRelPath deployFile).getLastD (goBase d.Directory), content⟩] := by
  unfold zipFiles
  rw [hfiles, zipFilesGo_fst_eq_archiveOf]
  simp only [archiveOf, h, List.append_nil]

/-- Witness for C3: the entry `"Dockerfile"` yields exactly one archive entry
named `"Dockerfile"`. -/
theorem zipFiles_single_file_entry_witness :
    (sampleDesc.Files = ["Dockerfile"] ∧
     sampleFS.lookup (splitRelPath "Dockerfile") = some (.file "FROM scratch")) ∧
    (zipFiles (σ := Unit) sampleFS sampleDesc none ()).1 =
      .ok [⟨"Dockerfile", "FROM scratch"⟩] :=
  ⟨⟨rfl, rfl⟩,
   (zipFiles_single_file_entry sampleFS sampleDesc "Dockerfile" "FROM scratch"
      none () rfl rfl).trans rfl⟩

/-- C4 fails on the code: for a directory entry `config` containing a file
named `a:b.yml`, the walk applies `filepath.SplitList` — which splits on the
OS path-list separator `':'` — to the relative path, so the archive entry is
named `config/a/b.yml` instead of the joined path `config/a:b.yml` required
by the claim.  This theorem evaluates the walk at that failing input. -/
theorem writeDirToZip_splits_colon_filename :
    (writeDirToZip (σ := Unit) "config" (.dir [("a:b.yml", .file "x")]) none ()).1
      = [⟨"config/a/b.yml", "x"⟩] ∧
    ¬ ((⟨"config/a:b.yml", "x"⟩ : ZipEntry) ∈
      (writeDirToZip (σ := Unit) "config" (.dir [("a:b.yml", .file "x")]) none ()).1) := by
  decide

end ElbDeploy
